/-
  Verification of the Snooz BLE ↔ WebSocket bridge
  (device orchestration and gateway layer).

  A shallow embedding of the Python sources:
    - ble_snooz.py      (BleSnooz session wrapper: snapshot, bind_discovery,
                         is_ready, debounced state-change events)
    - snooz_manager.py  (SnoozManager: discovery scan, rescan loop,
                         BLE-op serialization, per-device commands)
    - ws_server.py      (WebSocketServer: message parsing/dispatch,
                         correlated responses)

  Python dicts keyed by strings are embedded as association lists with
  last-write-wins insertion; only `lookup` is ever consulted, so insertion
  order is irrelevant.  Python truthiness on strings ("" is falsy, None is
  falsy) is embedded by letting the empty string play the role of None where
  the source uses `x or y` chains on optional strings.
-/
import Mathlib

namespace SnoozBridge

/-! ### Basic data: advertisements and sessions -/

/-- An observed BLE advertisement, as seen by the scan detection callback:
`device.address` and the `adv.local_name` / `device.name` pair.  The empty
string stands for Python `None` (both are falsy in the source's `or`
chains). -/
structure Advertisement where
  address   : String
  localName : String
  bleName   : String
  deriving DecidableEq, Repr

/-- Python `a or b` on strings: `""` and `None` are both falsy. -/
def pyOr (a b : String) : String :=
  if a = "" then b else a

/-- Python `s.upper()` (ASCII case mapping suffices for the MAC addresses
and advertised names compared here); defined on the character list so that
it reduces definitionally. -/
def sUpper (s : String) : String :=
  ⟨s.data.map Char.toUpper⟩

/-- Python `s.lower()` (ASCII). -/
def sLower (s : String) : String :=
  ⟨s.data.map Char.toLower⟩

/-- Python `s.strip()`: drop whitespace from both ends. -/
def sTrim (s : String) : String :=
  ⟨((s.data.dropWhile Char.isWhitespace).reverse.dropWhile
      Char.isWhitespace).reverse⟩

/-- pysnooz `SnoozDeviceState` as read by `snapshot()`; fields are nullable
until the first successful read. -/
structure SnoozDeviceState where
  on' : Option Bool
  volume : Option Nat
  light_on : Option Bool
  light_brightness : Option Nat
  night_mode_enabled : Option Bool
  deriving DecidableEq, Repr

/-- The slice of the external `SnoozDevice` handle (`BleSnooz._device`)
that the embedded code reads: cached state, connectivity, and the
connection-status name. -/
structure DeviceHandle where
  state : Option SnoozDeviceState
  isConnected : Bool
  connectionStatusName : String
  deriving DecidableEq, Repr

/-- `DiscoveredSnooz` (ble_snooz.py): the fields `snapshot()` reads from
`BleSnooz._discovered`. -/
structure DiscoveredSnooz where
  displayName : String
  modelName : String
  firmwareVersionName : String
  deriving DecidableEq, Repr

/-- `BleSnooz` (ble_snooz.py): configured identity plus the mutable session
fields `_device` and `_discovered`.  `address` is uppercased by the
constructor and `""` means "not configured"; `matchName` is the optional
advertised-name matcher. -/
structure BleSnooz where
  deviceName : String
  address : String
  matchName : Option String
  device : Option DeviceHandle
  discovered : Option DiscoveredSnooz
  deriving DecidableEq, Repr

/-- `BleSnooz.is_ready`: `self._device is not None and self._discovered is
not None`. -/
def BleSnooz.isReady (s : BleSnooz) : Bool :=
  s.device.isSome && s.discovered.isSome

/-! ### Discovery scan (`SnoozManager._scan_for_targets`) -/

/-- `addr_to_device_name`: for each target with a truthy `address`, map
`addr.upper()` to the device name.  Python dict writes are last-write-wins;
this recursion keeps, for every key, exactly the entry of the last device in
the list that produces that key, so `lookup` agrees with the source dict. -/
def buildAddrMap : List BleSnooz → List (String × String)
  | [] => []
  | d :: rest =>
    let m := buildAddrMap rest
    if d.address = "" then m
    else if (m.lookup (sUpper d.address)).isSome then m
    else (sUpper d.address, d.deviceName) :: m

/-- `name_to_device_name`: for each target with a truthy `match_name`, map
`match_name.strip().lower()` to the device name (last-write-wins as for
`buildAddrMap`). -/
def buildNameMap : List BleSnooz → List (String × String)
  | [] => []
  | d :: rest =>
    let m := buildNameMap rest
    match d.matchName with
    | none => m
    | some mn =>
      if mn = "" then m
      else if (m.lookup (sLower (sTrim mn))).isSome then m
      else (sLower (sTrim mn), d.deviceName) :: m

/-- The advertised name used for matching:
`(adv.local_name or device.name or "").strip()`. -/
def advName (adv : Advertisement) : String :=
  sTrim (pyOr adv.localName adv.bleName)

/-- The match decision of the detection callback `cb`: try the address map
first (`if addr and addr in addr_to_device_name`), else the name map
(`elif adv_name_l and adv_name_l in name_to_device_name`). -/
def matchAdv (am nm : List (String × String)) (adv : Advertisement) :
    Option String :=
  let addr := sUpper adv.address
  let nameL := sLower (advName adv)
  if addr ≠ "" && (am.lookup addr).isSome then am.lookup addr
  else if nameL ≠ "" && (nm.lookup nameL).isSome then nm.lookup nameL
  else none

/-- The scan's mutable state: the `found` dict and the `done`
`asyncio.Event`. -/
structure ScanState where
  found : List (String × Advertisement)
  doneFlag : Bool
  deriving DecidableEq, Repr

/-- One invocation of the detection callback `cb`: record a first match
(`matched_device_name and matched_device_name not in found`), and set `done`
once every target is present in `found`. -/
def scanCb (am nm : List (String × String)) (targets : List String)
    (st : ScanState) (adv : Advertisement) : ScanState :=
  match matchAdv am nm adv with
  | none => st
  | some m =>
    if m ≠ "" && (st.found.lookup m).isNone then
      let found' := st.found ++ [(m, adv)]
      { found := found',
        doneFlag :=
          st.doneFlag || targets.all fun t => (found'.lookup t).isSome }
    else st

/-- Run the scan over the advertisements observed before the timeout, in
arrival order; once `done` is set the scanner is stopped, so later
advertisements are not processed. -/
def scanRun (am nm : List (String × String)) (targets : List String) :
    ScanState → List Advertisement → ScanState
  | st, [] => st
  | st, a :: rest =>
    if st.doneFlag then st
    else scanRun am nm targets (scanCb am nm targets st a) rest

/-- `SnoozManager._scan_for_targets`, as a function of the target devices
and of the finite list of advertisements the radio delivers before the
timeout: returns the `found` mapping (name → advertisement). -/
def scanForTargets (devs : List BleSnooz) (advs : List Advertisement) :
    List (String × Advertisement) :=
  (scanRun (buildAddrMap devs) (buildNameMap devs)
    (devs.map BleSnooz.deviceName) ⟨[], false⟩ advs).found

/-! ### Snapshot (`BleSnooz.snapshot`) -/

/-- The dict returned by `BleSnooz.snapshot()`, with the nested `state`
dict flattened into `state_*` fields. -/
structure Snapshot where
  device_name : String
  address : String
  display_name : Option String
  connected : Bool
  connection_status : String
  model : Option String
  firmware_version : Option String
  state_on : Option Bool
  state_volume : Option Nat
  state_light_on : Option Bool
  state_light_brightness : Option Nat
  state_night_mode_enabled : Option Bool
  deriving DecidableEq, Repr

/-- `BleSnooz.snapshot`: read the cached view; a pure function of the
session, with no radio access. -/
def BleSnooz.snapshot (s : BleSnooz) : Snapshot :=
  let state : Option SnoozDeviceState :=
    match s.device with
    | some d => d.state
    | none => none
  { device_name := s.deviceName
    address := s.address
    display_name := s.discovered.map DiscoveredSnooz.displayName
    connected :=
      match s.device with
      | some d => d.isConnected
      | none => false
    connection_status :=
      match s.device with
      | some d => d.connectionStatusName
      | none => "UNKNOWN"
    model := s.discovered.map DiscoveredSnooz.modelName
    firmware_version := s.discovered.map DiscoveredSnooz.firmwareVersionName
    state_on := state.bind SnoozDeviceState.on'
    state_volume := state.bind SnoozDeviceState.volume
    state_light_on := state.bind SnoozDeviceState.light_on
    state_light_brightness := state.bind SnoozDeviceState.light_brightness
    state_night_mode_enabled :=
      state.bind SnoozDeviceState.night_mode_enabled }

/-! ### Manager commands (`SnoozManager.cmd_*`, `_with_ble_lock`) -/

/-- pysnooz `SnoozCommandResultStatus`. -/
inductive SnoozCommandResultStatus
  | successful | cancelled | deviceUnavailable | unexpectedError
  deriving DecidableEq, Repr

/-- pysnooz `SnoozCommandResult`, reduced to the field the gateway
inspects (`ensure_success` reads only `status`). -/
structure SnoozCommandResult where
  status : SnoozCommandResultStatus
  deriving DecidableEq, Repr

/-- `SnoozCommandResultStatus.name` as used in the `command_failed`
message. -/
def statusName : SnoozCommandResultStatus → String
  | .successful => "SUCCESSFUL"
  | .cancelled => "CANCELLED"
  | .deviceUnavailable => "DEVICE_UNAVAILABLE"
  | .unexpectedError => "UNEXPECTED_ERROR"

/-- Observable actions of a command on the shared radio resource:
acquiring/releasing the capacity-1 semaphore `_ble_op_sem`, and issuing a
radio transaction (`async_execute_command`). -/
inductive BleAction
  | acquireGate
  | radioTxn (op : String)
  | releaseGate
  deriving DecidableEq, Repr

/-- Exceptions a manager command can raise, as caught by the gateway. -/
inductive CmdError
  | unknownDevice (name : String)   -- `get_device` KeyError
  | deviceUnavailable               -- RuntimeError("device_unavailable")
  | validation (msg : String)       -- ValueError
  | deviceException (msg : String)  -- raise out of `async_execute_command`
  deriving DecidableEq, Repr

/-- `str(exc)` as seen by the gateway's except-handler. -/
def errString : CmdError → String
  | .unknownDevice n => "Unknown device_name: " ++ n
  | .deviceUnavailable => "device_unavailable"
  | .validation m => m
  | .deviceException m => m

/-- `SnoozManager._with_ble_lock`: acquire the capacity-1 semaphore, run
the body, and release on exit — `async with` releases whether the body
returns or raises. -/
def withBleLock (body : Except CmdError SnoozCommandResult × List BleAction) :
    Except CmdError SnoozCommandResult × List BleAction :=
  (body.1, .acquireGate :: (body.2 ++ [.releaseGate]))

/-- One `async_execute_command` call; its outcome (a result, or a raised
exception) is an oracle supplied by the environment. -/
def execTxn (op : String) (txn : Except String SnoozCommandResult) :
    Except CmdError SnoozCommandResult × List BleAction :=
  match txn with
  | .ok r => (.ok r, [.radioTxn op])
  | .error e => (.error (.deviceException e), [.radioTxn op])

/-- Modelled from the spec: the pysnooz `turn_on` command constructor is an
external collaborator not under src/; per the spec's command table,
`noise_on` takes an optional `volume` in 0–100, so an out-of-range volume
raises a validation error when the command object is constructed (inside
`_do`, before `async_execute_command` runs). -/
def turnOn (volume : Option Int) : Except String Unit :=
  match volume with
  | none => .ok ()
  | some v =>
    if 0 ≤ v ∧ v ≤ 100 then .ok ()
    else .error "volume must be between 0 and 100"

/-- The six device commands of `SnoozManager`. -/
inductive DeviceCommand
  | noiseOn (volume : Option Int)
  | noiseOff (durationS : Option Int)
  | setVolume (volume : Int)
  | lightOn
  | lightOff
  | setLightBrightness (brightness : Int)
  deriving DecidableEq, Repr

/-- The `cmd_*` bodies after `get_device`: readiness check first, then
per-command argument validation, then the `_do` body under
`_with_ble_lock`.  `txn` is the environment's outcome for the radio
transaction, should one be issued. -/
def runCommand (ready : Bool) (c : DeviceCommand)
    (txn : Except String SnoozCommandResult) :
    Except CmdError SnoozCommandResult × List BleAction :=
  if !ready then (.error .deviceUnavailable, [])
  else
    match c with
    | .noiseOn v =>
      withBleLock
        (match turnOn v with
         | .error e => (.error (.validation e), [])
         | .ok _ => execTxn "noise_on" txn)
    | .noiseOff _ => withBleLock (execTxn "noise_off" txn)
    | .setVolume v =>
      if !(decide (0 ≤ v) && decide (v ≤ 100)) then
        (.error (.validation "volume must be 0..100"), [])
      else withBleLock (execTxn "set_volume" txn)
    | .lightOn => withBleLock (execTxn "light_on" txn)
    | .lightOff => withBleLock (execTxn "light_off" txn)
    | .setLightBrightness b =>
      if !(decide (0 ≤ b) && decide (b ≤ 100)) then
        (.error (.validation "brightness must be 0..100"), [])
      else withBleLock (execTxn "set_light_brightness" txn)

/-- The registry `SnoozManager._devices` (name → session); mutated only
during registration. -/
abbrev Registry := List (String × BleSnooz)

/-- `SnoozManager.get_device`: KeyError for an unknown name. -/
def getDevice (reg : Registry) (name : String) : Except CmdError BleSnooz :=
  match reg.lookup name with
  | none => .error (.unknownDevice name)
  | some s => .ok s

/-- `SnoozManager.cmd_get_state`: lookup, then `snapshot()`.  No readiness
check and no radio action of any kind. -/
def cmdGetState (reg : Registry) (name : String) :
    Except CmdError Snapshot × List BleAction :=
  match getDevice reg name with
  | .error e => (.error e, [])
  | .ok s => (.ok s.snapshot, [])

/-- A manager action command on a named device: `get_device` then the
shared `cmd_*` body. -/
def mgrCommand (reg : Registry) (name : String) (c : DeviceCommand)
    (txn : Except String SnoozCommandResult) :
    Except CmdError SnoozCommandResult × List BleAction :=
  match getDevice reg name with
  | .error e => (.error e, [])
  | .ok s => runCommand s.isReady c txn

/-! ### Gateway (`WebSocketServer._handle_message`) -/

/-- The fields of a parsed command message that the dispatcher reads
(`msg.get(...)` yields `none` for an absent field).  Argument fields are
the JSON numbers the handlers convert with `int(...)`. -/
structure WsMsg where
  type : Option String
  requestId : Option String
  command : Option String
  deviceName : Option String
  volume : Option Int
  brightness : Option Int
  durationS : Option Int
  deriving DecidableEq, Repr

/-- An inbound text frame: either not valid JSON, or a parsed JSON
object. -/
inductive Frame
  | invalidJson
  | msg (m : WsMsg)
  deriving DecidableEq, Repr

/-- Response payloads (`data`) produced by the handlers. -/
inductive RespData
  | heartbeat
  | deviceList (names : List String)
  | snapshotData (s : Snapshot)
  | commandResult (r : SnoozCommandResult)
  deriving DecidableEq, Repr

/-- A correlated server → client response: `_send_ok` or `_send_error`,
each carrying the echoed `request_id`. -/
inductive WsResponse
  | ok (requestId : Option String) (data : RespData)
  | err (requestId : Option String) (error : String)
  deriving DecidableEq, Repr

/-- The seven commands that require `device_name`. -/
def deviceNameCommands : List String :=
  ["get_state", "noise_on", "noise_off", "set_volume", "light_on",
   "light_off", "set_light_brightness"]

/-- Python truthiness of the `device_name` field (`not device_name` is
true for both a missing field and an empty string). -/
def truthyName : Option String → Bool
  | none => false
  | some n => n ≠ ""

/-- `ensure_success` followed by `_send_ok`, with every raise from the
command path turned into one `_send_error`: the shared tail of all six
action-command branches. -/
def respondResult (rid : Option String)
    (r : Except CmdError SnoozCommandResult) : WsResponse :=
  match r with
  | .error e => .err rid (errString e)
  | .ok res =>
    if res.status = .successful then .ok rid (.commandResult res)
    else .err rid ("command_failed: " ++ statusName res.status)

/-- The body of the `try` block of `_handle_message` for a `command`
message, together with the surrounding `except` that converts any raise
into one correlated error response.  Every branch produces exactly one
response. -/
def handleCommandMsg (reg : Registry)
    (txn : Except String SnoozCommandResult) (m : WsMsg) : WsResponse :=
  let rid := m.requestId
  let dn := m.deviceName.getD ""
  if m.command = some "heartbeat" then .ok rid .heartbeat
  else if m.command = some "list_devices" then
    .ok rid (.deviceList (reg.map Prod.fst))
  else if (m.command.elim false fun c => c ∈ deviceNameCommands)
      && !truthyName m.deviceName then
    .err rid "device_name is required"
  else if m.command = some "get_state" then
    match (cmdGetState reg dn).1 with
    | .error e => .err rid (errString e)
    | .ok snap => .ok rid (.snapshotData snap)
  else if m.command = some "noise_on" then
    respondResult rid (mgrCommand reg dn (.noiseOn m.volume) txn).1
  else if m.command = some "noise_off" then
    respondResult rid (mgrCommand reg dn (.noiseOff m.durationS) txn).1
  else if m.command = some "set_volume" then
    match m.volume with
    | none => .err rid "'volume'"  -- KeyError from msg["volume"]
    | some v => respondResult rid (mgrCommand reg dn (.setVolume v) txn).1
  else if m.command = some "light_on" then
    respondResult rid (mgrCommand reg dn .lightOn txn).1
  else if m.command = some "light_off" then
    respondResult rid (mgrCommand reg dn .lightOff txn).1
  else if m.command = some "set_light_brightness" then
    match m.brightness with
    | none => .err rid "'brightness'"  -- KeyError from msg["brightness"]
    | some b =>
      respondResult rid (mgrCommand reg dn (.setLightBrightness b) txn).1
  else .err rid ("unknown_command: " ++ m.command.getD "None")

/-- `WebSocketServer._handle_message` on one inbound frame: the responses
sent, and whether the connection remains open for subsequent messages
(the handler never closes it). -/
def handleMessage (reg : Registry)
    (txn : Except String SnoozCommandResult) :
    Frame → List WsResponse × Bool
  | .invalidJson => ([.err none "invalid_json"], true)
  | .msg m =>
    if m.type ≠ some "command" then
      ([.err m.requestId "type_must_be_command"], true)
    else ([handleCommandMsg reg txn m], true)

/-! ### Debounced state-change events (`BleSnooz._on_state_change`) -/

/-- The debounce window of `_on_state_change` (`asyncio.sleep(0.25)`), in
milliseconds. -/
def DEBOUNCE_MS : Nat := 250

/-- Debounced emissions of one device session, from the time-ordered list
of raw state-change notifications `(t, s)`, where `s` is the cached device
state just after the notification at time `t`.  Each notification cancels
the pending `_event_task` and schedules a fresh emission at `t + 250` ms;
the emission fires only if no further notification arrives before that
instant, and its snapshot is taken at emission time — the cached state does
not change between notifications, so it is the state recorded with the most
recent notification. -/
def debounceEmissions {σ : Type} : List (Nat × σ) → List (Nat × σ)
  | [] => []
  | (t, s) :: rest =>
    match rest with
    | [] => [(t + DEBOUNCE_MS, s)]
    | (t', _) :: _ =>
      if t' < t + DEBOUNCE_MS then debounceEmissions rest
      else (t + DEBOUNCE_MS, s) :: debounceEmissions rest

/-! ### Rescan supervisor (`SnoozManager._rescan_loop`) -/

/-- In-place mutation of the session object registered under `name` (the
Python registry maps each name to the mutated object itself; registration
is the only path that adds or removes keys). -/
def regUpdate (reg : Registry) (name : String) (s : BleSnooz) : Registry :=
  reg.map fun p => if p.1 = name then (name, s) else p

/-- `BleSnooz.bind_discovery`: run the advertisement classifier (the
external `parse_snooz_advertisement_from_bleak` pipeline, abstracted as
the oracle `classify`, which also carries the derived display name); on
failure return `False` with the session unchanged, on success record the
discovery, create the not-yet-connected `SnoozDevice` handle, store the
resolved address, and return `True`. -/
def bindDiscovery (classify : Advertisement → Option DiscoveredSnooz)
    (s : BleSnooz) (adv : Advertisement) : Bool × BleSnooz :=
  match classify adv with
  | none => (false, s)
  | some d =>
    (true,
     { s with
        discovered := some d
        device := some
          { state := none, isConnected := false,
            connectionStatusName := "DISCONNECTED" }
        address := sUpper adv.address })

/-- The effect of `await dev.start()` on the session: on success the
handle is connected and the explicit state read populates the cache
(`outcome = some h` gives the resulting handle); a raise
(`outcome = none`) is caught by the rescan loop and leaves the session as
it was — `start` never touches `_device` or `_discovered`. -/
def startSession (outcome : Option DeviceHandle) (s : BleSnooz) :
    BleSnooz :=
  match outcome, s.device with
  | some h, some _ => { s with device := some h }
  | _, _ => s

/-- `missing_names` as computed at the top of a rescan tick. -/
def missingNames (reg : Registry) : List String :=
  (reg.filter fun p => !p.2.isReady).map Prod.fst

/-- One iteration of the bind-and-start loop of `_rescan_loop`: the guard
`if not dev.is_ready() and dev.bind_discovery(...)` re-checks readiness at
the moment of binding, so a session bound concurrently since the scan is
left untouched.  `startOutcome` is the environment's outcome for each
device's `start()`. -/
def rescanBindOne (classify : Advertisement → Option DiscoveredSnooz)
    (startOutcome : String → Option DeviceHandle)
    (reg : Registry) (entry : String × Advertisement) : Registry :=
  match reg.lookup entry.1 with
  | none => reg
  | some s =>
    if !s.isReady then
      let bound := bindDiscovery classify s entry.2
      if bound.1 then
        regUpdate reg entry.1 (startSession (startOutcome entry.1) bound.2)
      else reg
    else reg

/-- The bind-and-start loop over the scan result. -/
def rescanBindLoop (classify : Advertisement → Option DiscoveredSnooz)
    (startOutcome : String → Option DeviceHandle) :
    Registry → List (String × Advertisement) → Registry
  | reg, [] => reg
  | reg, e :: rest =>
    rescanBindLoop classify startOutcome
      (rescanBindOne classify startOutcome reg e) rest

/-- One tick of `SnoozManager._rescan_loop` (after the interval sleep):
compute the missing set; if empty, skip; otherwise scan restricted to the
missing sessions and run the bind-and-start loop over the matches. -/
def rescanTick (classify : Advertisement → Option DiscoveredSnooz)
    (startOutcome : String → Option DeviceHandle)
    (reg : Registry) (advs : List Advertisement) : Registry :=
  if missingNames reg = [] then reg
  else
    let missingDevs := ((reg.filter fun p => !p.2.isReady).map Prod.snd)
    rescanBindLoop classify startOutcome reg
      (scanForTargets missingDevs advs)

/-! ### The operation serializer, as an interleaving machine -/

/-- Phases of one in-flight device command with respect to the shared
semaphore `_ble_op_sem`: not yet at `async with`, suspended waiting for the
semaphore, holding it while the radio transaction runs, and finished
(semaphore released). -/
inductive TaskPhase
  | idle
  | waiting
  | inTxn
  | done
  deriving DecidableEq, Repr

/-- The fleet-wide serializer state: the single capacity-1 semaphore shared
by all sessions, and the phase of each of `n` concurrently submitted
commands (targeting the same or different devices). -/
structure SerializerState (n : Nat) where
  gate : Bool
  task : Fin n → TaskPhase

/-- Update the phase of one task. -/
def setTask {n : Nat} (f : Fin n → TaskPhase) (i : Fin n) (v : TaskPhase) :
    Fin n → TaskPhase :=
  fun j => if j = i then v else f j

/-- Interleaved execution of the command tasks under the cooperative
scheduler: a task reaches `async with _ble_op_sem` (`start`), acquires the
semaphore only when it is free (`acquire`), and leaves the `async with`
block releasing the semaphore whether its transaction returned or raised
(`finish ok`). -/
inductive SerStep {n : Nat} : SerializerState n → SerializerState n → Prop
  | start (s : SerializerState n) (i : Fin n) (h : s.task i = .idle) :
      SerStep s ⟨s.gate, setTask s.task i .waiting⟩
  | acquire (s : SerializerState n) (i : Fin n) (h : s.task i = .waiting)
      (hg : s.gate = false) :
      SerStep s ⟨true, setTask s.task i .inTxn⟩
  | finish (s : SerializerState n) (i : Fin n) (ok : Bool)
      (h : s.task i = .inTxn) :
      SerStep s ⟨false, setTask s.task i .done⟩

/-- States reachable from the initial state: semaphore free, no command
started. -/
inductive SerReachable {n : Nat} : SerializerState n → Prop
  | init : SerReachable ⟨false, fun _ => .idle⟩
  | step {s s' : SerializerState n} :
      SerReachable s → SerStep s s' → SerReachable s'

/-- `radioOnlyWhileHeld d tr`: scanning the trace with `d` acquisitions
currently outstanding, every radio transaction occurs with the gate
held. -/
def radioOnlyWhileHeld : Nat → List BleAction → Bool
  | _, [] => true
  | d, .acquireGate :: tr => radioOnlyWhileHeld (d + 1) tr
  | d, .releaseGate :: tr => radioOnlyWhileHeld (d - 1) tr
  | d, .radioTxn _ :: tr => decide (0 < d) && radioOnlyWhileHeld d tr

/-- Net gate balance of a trace: acquisitions minus releases. -/
def gateBalance : List BleAction → Int
  | [] => 0
  | .acquireGate :: tr => gateBalance tr + 1
  | .releaseGate :: tr => gateBalance tr - 1
  | .radioTxn _ :: tr => gateBalance tr

/-! ### Invariants and concrete fixtures -/

/-- Serializer invariant: a free semaphore means no task is in its radio
transaction, and at most one task is in its transaction at any time. -/
def SerInv {n : Nat} (s : SerializerState n) : Prop :=
  (s.gate = false → ∀ i, s.task i ≠ .inTxn) ∧
  (∀ i j, s.task i = .inTxn → s.task j = .inTxn → i = j)

/-- An identity configured with both an `address` and a `match_name`
(the configuration loader allows both; it requires only at least one). -/
def c3cfg : BleSnooz :=
  { deviceName := "bedroom", address := "AA:BB:CC:DD:EE:FF",
    matchName := some "Snooz-ABC", device := none, discovered := none }

/-- An advertisement whose hardware address differs from `c3cfg`'s
configured address but whose advertised name equals its `match_name`. -/
def c3adv : Advertisement :=
  { address := "11:22:33:44:55:66", localName := "Snooz-ABC", bleName := "" }

/-- An advertisement carrying `c3cfg`'s configured address in lower
case. -/
def c3advAddr : Advertisement :=
  { address := "aa:bb:cc:dd:ee:ff", localName := "Other", bleName := "" }

/-- A second advertisement (used to check that observations after scan
completion are ignored). -/
def c4late : Advertisement :=
  { address := "77:88:99:AA:BB:CC", localName := "Another", bleName := "" }

/-- A connected device handle fixture. -/
def demoHandle : DeviceHandle :=
  { state := none, isConnected := true, connectionStatusName := "CONNECTED" }

/-- A discovery fixture. -/
def demoDisc : DiscoveredSnooz :=
  { displayName := "Snooz-ABC", modelName := "PRO",
    firmwareVersionName := "V6" }

/-- A bound (ready) session fixture. -/
def demoReady : BleSnooz :=
  { deviceName := "bedroom", address := "AA:BB:CC:DD:EE:FF",
    matchName := none, device := some demoHandle,
    discovered := some demoDisc }

/-- A registered but still unbound session fixture. -/
def demoUnbound : BleSnooz :=
  { deviceName := "bedroom", address := "AA:BB:CC:DD:EE:FF",
    matchName := none, device := none, discovered := none }

/-- A command frame fixture. -/
def mkMsg (cmd : String) (vol : Option Int) : WsMsg :=
  { type := some "command", requestId := some "r1", command := some cmd,
    deviceName := some "bedroom", volume := vol, brightness := none,
    durationS := none }

/-- A classifier oracle that accepts every advertisement. -/
def c9classify : Advertisement → Option DiscoveredSnooz :=
  fun _ => some demoDisc

/-- A start oracle on which every `start()` raises. -/
def c9startFails : String → Option DeviceHandle :=
  fun _ => none

/-- A serializer state in which task 0 holds the gate inside its radio
transaction. -/
def serWitnessState : SerializerState 2 :=
  ⟨true, setTask (setTask (fun _ => .idle) 0 .waiting) 0 .inTxn⟩

/-! ### Helper lemmas -/

lemma serInv_step {n : Nat} {s s' : SerializerState n}
    (h : SerInv s) (st : SerStep s s') : SerInv s' := by
  obtain ⟨hg, huniq⟩ := h
  cases st with
  | start i hi =>
    constructor
    · intro hgf j hj
      simp only [setTask] at hj ⊢
      by_cases hji : j = i
      · subst hji; simp at hj
      · exact hg hgf j (by simpa [hji] using hj)
    · intro a b ha hb
      simp only [setTask] at ha hb
      by_cases hai : a = i
      · subst hai; simp at ha
      · by_cases hbi : b = i
        · subst hbi; simp at hb
        · exact huniq a b (by simpa [hai] using ha) (by simpa [hbi] using hb)
  | acquire i hi hgf =>
    constructor
    · intro hfalse; simp at hfalse
    · intro a b ha hb
      simp only [setTask] at ha hb
      by_cases hai : a = i
      · by_cases hbi : b = i
        · rw [hai, hbi]
        · exact absurd (by simpa [hbi] using hb) (hg hgf b)
      · exact absurd (by simpa [hai] using ha) (hg hgf a)
  | finish i ok hi =>
    constructor
    · intro _ j hj
      simp only [setTask] at hj
      by_cases hji : j = i
      · simp [hji] at hj
      · exact hji (huniq j i (by simpa [hji] using hj) hi)
    · intro a b ha hb
      simp only [setTask] at ha hb
      by_cases hai : a = i
      · simp [hai] at ha
      · by_cases hbi : b = i
        · simp [hbi] at hb
        · exact huniq a b (by simpa [hai] using ha) (by simpa [hbi] using hb)

lemma serInv_reachable {n : Nat} {s : SerializerState n}
    (h : SerReachable s) : SerInv s := by
  induction h with
  | init =>
    exact ⟨fun _ i hi => by simp at hi, fun i j hi hj => by simp at hi⟩
  | step _ hstep ih => exact serInv_step ih hstep

lemma runCommand_trace_discipline (ready : Bool) (c : DeviceCommand)
    (txn : Except String SnoozCommandResult) :
    radioOnlyWhileHeld 0 (runCommand ready c txn).2 = true ∧
    gateBalance (runCommand ready c txn).2 = 0 := by
  cases ready with
  | false => simp [runCommand, radioOnlyWhileHeld, gateBalance]
  | true =>
    cases c with
    | noiseOn v =>
      rcases v with _ | v
      · cases txn <;>
          simp [runCommand, turnOn, withBleLock, execTxn,
            radioOnlyWhileHeld, gateBalance]
      · by_cases hv : 0 ≤ v ∧ v ≤ 100
        · cases txn <;>
            simp [runCommand, turnOn, hv, withBleLock, execTxn,
              radioOnlyWhileHeld, gateBalance]
        · simp [runCommand, turnOn, hv, withBleLock, execTxn,
            radioOnlyWhileHeld, gateBalance]
    | noiseOff d =>
      cases txn <;>
        simp [runCommand, withBleLock, execTxn, radioOnlyWhileHeld,
          gateBalance]
    | setVolume v =>
      by_cases h1 : (0:Int) ≤ v <;> by_cases h2 : v ≤ 100 <;>
        cases txn <;>
        simp [runCommand, withBleLock, execTxn, radioOnlyWhileHeld,
          gateBalance, h1, h2]
    | lightOn =>
      cases txn <;>
        simp [runCommand, withBleLock, execTxn, radioOnlyWhileHeld,
          gateBalance]
    | lightOff =>
      cases txn <;>
        simp [runCommand, withBleLock, execTxn, radioOnlyWhileHeld,
          gateBalance]
    | setLightBrightness b =>
      by_cases h1 : (0:Int) ≤ b <;> by_cases h2 : b ≤ 100 <;>
        cases txn <;>
        simp [runCommand, withBleLock, execTxn, radioOnlyWhileHeld,
          gateBalance, h1, h2]

lemma lookup_cons' {β : Type} (k k' : String) (v : β)
    (t : List (String × β)) :
    ((k', v) :: t).lookup k = if k == k' then some v else t.lookup k := by
  cases hbeq : k == k' <;> simp [List.lookup, hbeq]

lemma lookup_append_isSome {β : Type} (l l' : List (String × β)) (k : String)
    (h : (l.lookup k).isSome) : (l ++ l').lookup k = l.lookup k := by
  induction l with
  | nil => simp [List.lookup] at h
  | cons p t ih =>
    rcases p with ⟨k', v⟩
    rw [List.cons_append, lookup_cons', lookup_cons']
    rw [lookup_cons'] at h
    by_cases hbeq : (k == k') = true
    · simp [hbeq]
    · simp only [Bool.not_eq_true] at hbeq
      simp only [hbeq, if_false] at h ⊢
      exact ih h

lemma lookup_append_none {β : Type} (l l' : List (String × β)) (k : String)
    (h : l.lookup k = none) : (l ++ l').lookup k = l'.lookup k := by
  induction l with
  | nil => simp
  | cons p t ih =>
    rcases p with ⟨k', v⟩
    rw [List.cons_append, lookup_cons']
    rw [lookup_cons'] at h
    by_cases hbeq : (k == k') = true
    · simp [hbeq] at h
    · simp only [Bool.not_eq_true] at hbeq
      simp only [hbeq, if_false] at h ⊢
      exact ih h

lemma sUpper_eq_empty_iff (s : String) : sUpper s = "" ↔ s = "" := by
  cases s with
  | mk data => simp [sUpper, String.ext_iff]

lemma buildAddrMap_lookup_some (devs : List BleSnooz) (a n : String)
    (h : (buildAddrMap devs).lookup a = some n) :
    ∃ d ∈ devs, d.address ≠ "" ∧ sUpper d.address = a ∧ d.deviceName = n := by
  induction devs with
  | nil => simp [buildAddrMap, List.lookup] at h
  | cons d rest ih =>
    simp only [buildAddrMap] at h
    by_cases ha : d.address = ""
    · rw [if_pos ha] at h
      obtain ⟨d', hmem, h1, h2, h3⟩ := ih h
      exact ⟨d', List.mem_cons_of_mem d hmem, h1, h2, h3⟩
    · rw [if_neg ha] at h
      by_cases hs : ((buildAddrMap rest).lookup (sUpper d.address)).isSome
      · rw [if_pos hs] at h
        obtain ⟨d', hmem, h1, h2, h3⟩ := ih h
        exact ⟨d', List.mem_cons_of_mem d hmem, h1, h2, h3⟩
      · rw [if_neg hs] at h
        rw [lookup_cons'] at h
        by_cases hbeq : (a == sUpper d.address) = true
        · simp only [hbeq, if_true, Option.some.injEq] at h
          exact ⟨d, List.mem_cons_self d rest, ha, (eq_of_beq hbeq).symm, h⟩
        · simp only [Bool.not_eq_true] at hbeq
          simp only [hbeq, if_false] at h
          obtain ⟨d', hmem, h1, h2, h3⟩ := ih h
          exact ⟨d', List.mem_cons_of_mem d hmem, h1, h2, h3⟩

lemma buildAddrMap_isSome_of_mem (devs : List BleSnooz) (d : BleSnooz)
    (hd : d ∈ devs) (ha : d.address ≠ "") :
    ((buildAddrMap devs).lookup (sUpper d.address)).isSome := by
  induction devs with
  | nil => simp at hd
  | cons d' rest ih =>
    simp only [buildAddrMap]
    rcases List.mem_cons.mp hd with heq | hmem
    · subst heq
      rw [if_neg ha]
      by_cases hs : ((buildAddrMap rest).lookup (sUpper d.address)).isSome
      · rw [if_pos hs]; exact hs
      · rw [if_neg hs, lookup_cons']
        simp
    · have hrest := ih hmem
      by_cases ha' : d'.address = ""
      · rw [if_pos ha']; exact hrest
      · rw [if_neg ha']
        by_cases hs : ((buildAddrMap rest).lookup (sUpper d'.address)).isSome
        · rw [if_pos hs]; exact hrest
        · rw [if_neg hs, lookup_cons']
          by_cases hbeq : (sUpper d.address == sUpper d'.address) = true
          · simp [hbeq]
          · simp only [Bool.not_eq_true] at hbeq
            rw [if_neg (by simp [hbeq])]
            exact hrest

lemma buildAddrMap_lookup_of_mem (devs : List BleSnooz) (d : BleSnooz)
    (hd : d ∈ devs) (ha : d.address ≠ "")
    (hdist : ∀ d₁ ∈ devs, ∀ d₂ ∈ devs, d₁.address ≠ "" → d₂.address ≠ "" →
      sUpper d₁.address = sUpper d₂.address → d₁.deviceName = d₂.deviceName) :
    (buildAddrMap devs).lookup (sUpper d.address) = some d.deviceName := by
  have hs := buildAddrMap_isSome_of_mem devs d hd ha
  obtain ⟨n, hn⟩ := Option.isSome_iff_exists.mp hs
  obtain ⟨d', hmem, h1, h2, h3⟩ := buildAddrMap_lookup_some devs _ n hn
  rw [hn, ← h3]
  exact congrArg some (hdist d' hmem d hd h1 ha h2)

lemma buildNameMap_lookup_some (devs : List BleSnooz) (a n : String)
    (h : (buildNameMap devs).lookup a = some n) :
    ∃ d ∈ devs, ∃ mn, d.matchName = some mn ∧ mn ≠ "" ∧
      sLower (sTrim mn) = a ∧ d.deviceName = n := by
  induction devs with
  | nil => simp [buildNameMap, List.lookup] at h
  | cons d rest ih =>
    simp only [buildNameMap] at h
    cases hmn : d.matchName with
    | none =>
      rw [hmn] at h
      obtain ⟨d', hm, mn, h1, h2, h3, h4⟩ := ih h
      exact ⟨d', List.mem_cons_of_mem d hm, mn, h1, h2, h3, h4⟩
    | some mn =>
      rw [hmn] at h
      dsimp only at h
      by_cases hemp : mn = ""
      · rw [if_pos hemp] at h
        obtain ⟨d', hm, mn', h1, h2, h3, h4⟩ := ih h
        exact ⟨d', List.mem_cons_of_mem d hm, mn', h1, h2, h3, h4⟩
      · rw [if_neg hemp] at h
        by_cases hs : ((buildNameMap rest).lookup (sLower (sTrim mn))).isSome
        · rw [if_pos hs] at h
          obtain ⟨d', hm, mn', h1, h2, h3, h4⟩ := ih h
          exact ⟨d', List.mem_cons_of_mem d hm, mn', h1, h2, h3, h4⟩
        · rw [if_neg hs, lookup_cons'] at h
          by_cases hbeq : (a == sLower (sTrim mn)) = true
          · simp only [hbeq, if_true, Option.some.injEq] at h
            exact ⟨d, List.mem_cons_self d rest, mn, hmn, hemp,
              (eq_of_beq hbeq).symm, h⟩
          · simp only [Bool.not_eq_true] at hbeq
            simp only [hbeq, if_false] at h
            obtain ⟨d', hm, mn', h1, h2, h3, h4⟩ := ih h
            exact ⟨d', List.mem_cons_of_mem d hm, mn', h1, h2, h3, h4⟩

lemma buildNameMap_isSome_of_mem (devs : List BleSnooz) (d : BleSnooz)
    (mn : String) (hd : d ∈ devs) (hmn : d.matchName = some mn)
    (hemp : mn ≠ "") :
    ((buildNameMap devs).lookup (sLower (sTrim mn))).isSome := by
  induction devs with
  | nil => simp at hd
  | cons d' rest ih =>
    simp only [buildNameMap]
    rcases List.mem_cons.mp hd with heq | hmem
    · subst heq
      rw [hmn]
      dsimp only
      rw [if_neg hemp]
      by_cases hs : ((buildNameMap rest).lookup (sLower (sTrim mn))).isSome
      · rw [if_pos hs]; exact hs
      · rw [if_neg hs, lookup_cons']
        simp
    · have hrest := ih hmem
      cases hmn' : d'.matchName with
      | none => exact hrest
      | some mn' =>
        dsimp only
        by_cases hemp' : mn' = ""
        · rw [if_pos hemp']; exact hrest
        · rw [if_neg hemp']
          by_cases hs : ((buildNameMap rest).lookup (sLower (sTrim mn'))).isSome
          · rw [if_pos hs]; exact hrest
          · rw [if_neg hs, lookup_cons']
            by_cases hbeq : (sLower (sTrim mn) == sLower (sTrim mn')) = true
            · simp [hbeq]
            · simp only [Bool.not_eq_true] at hbeq
              rw [if_neg (by simp [hbeq])]
              exact hrest

lemma matchAdv_cases (am nm : List (String × String)) (adv : Advertisement)
    (m : String) (h : matchAdv am nm adv = some m) :
    (sUpper adv.address ≠ "" ∧ am.lookup (sUpper adv.address) = some m) ∨
    ((sUpper adv.address = "" ∨ am.lookup (sUpper adv.address) = none) ∧
      sLower (advName adv) ≠ "" ∧
      nm.lookup (sLower (advName adv)) = some m) := by
  unfold matchAdv at h
  by_cases h1 : (sUpper adv.address ≠ "" &&
      (am.lookup (sUpper adv.address)).isSome) = true
  · rw [if_pos h1] at h
    simp only [Bool.and_eq_true, decide_eq_true_eq] at h1
    exact Or.inl ⟨by simpa using h1.1, h⟩
  · rw [if_neg h1] at h
    have h1' : sUpper adv.address = "" ∨
        am.lookup (sUpper adv.address) = none := by
      by_cases he : sUpper adv.address = ""
      · exact Or.inl he
      · refine Or.inr ?_
        cases ho : am.lookup (sUpper adv.address) with
        | none => rfl
        | some x => exact absurd (by simp [he, ho]) h1
    by_cases h2 : (sLower (advName adv) ≠ "" &&
        (nm.lookup (sLower (advName adv))).isSome) = true
    · rw [if_pos h2] at h
      simp only [Bool.and_eq_true, decide_eq_true_eq] at h2
      exact Or.inr ⟨h1', by simpa using h2.1, h⟩
    · rw [if_neg h2] at h
      exact absurd h (by simp)

lemma scanCb_found_mono (am nm : List (String × String))
    (targets : List String) (st : ScanState) (adv : Advertisement)
    (k : String) (h : (st.found.lookup k).isSome) :
    (scanCb am nm targets st adv).found.lookup k = st.found.lookup k := by
  unfold scanCb
  cases hm : matchAdv am nm adv with
  | none => rfl
  | some m =>
    dsimp only
    by_cases hg : (m ≠ "" && (st.found.lookup m).isNone) = true
    · rw [if_pos hg]
      exact lookup_append_isSome _ _ _ h
    · rw [if_neg hg]

lemma scanRun_done (am nm : List (String × String)) (targets : List String)
    (st : ScanState) (advs : List Advertisement)
    (h : st.doneFlag = true) :
    scanRun am nm targets st advs = st := by
  cases advs with
  | nil => rfl
  | cons a rest => simp only [scanRun]; rw [if_pos h]

lemma scanRun_append (am nm : List (String × String))
    (targets : List String) (st : ScanState)
    (p q : List Advertisement) :
    scanRun am nm targets st (p ++ q) =
      scanRun am nm targets (scanRun am nm targets st p) q := by
  induction p generalizing st with
  | nil => rfl
  | cons a rest ih =>
    rw [List.cons_append]
    simp only [scanRun]
    by_cases h : st.doneFlag = true
    · rw [if_pos h, if_pos h, scanRun_done _ _ _ _ _ h]
    · rw [if_neg h, if_neg h]
      exact ih _

lemma scanCb_done_imp (am nm : List (String × String))
    (targets : List String) (st : ScanState) (adv : Advertisement)
    (h : st.doneFlag = true → ∀ t ∈ targets, (st.found.lookup t).isSome) :
    (scanCb am nm targets st adv).doneFlag = true →
      ∀ t ∈ targets, ((scanCb am nm targets st adv).found.lookup t).isSome := by
  unfold scanCb
  cases hm : matchAdv am nm adv with
  | none => exact h
  | some m =>
    dsimp only
    by_cases hg : (m ≠ "" && (st.found.lookup m).isNone) = true
    · rw [if_pos hg]
      intro hdone t ht
      rcases Bool.or_eq_true _ _ |>.mp hdone with hd | hall
      · have := h hd t ht
        rw [lookup_append_isSome _ _ _ this]
        exact this
      · exact List.all_eq_true.mp hall t ht
    · rw [if_neg hg]
      exact h

lemma scanCb_allfound_imp (am nm : List (String × String))
    (targets : List String) (st : ScanState) (adv : Advertisement)
    (h : (∀ t ∈ targets, (st.found.lookup t).isSome) → st.doneFlag = true) :
    (∀ t ∈ targets, ((scanCb am nm targets st adv).found.lookup t).isSome) →
      (scanCb am nm targets st adv).doneFlag = true := by
  unfold scanCb
  cases hm : matchAdv am nm adv with
  | none => exact h
  | some m =>
    dsimp only
    by_cases hg : (m ≠ "" && (st.found.lookup m).isNone) = true
    · rw [if_pos hg]
      intro hall
      have : (targets.all fun t =>
          ((st.found ++ [(m, adv)]).lookup t).isSome) = true :=
        List.all_eq_true.mpr fun t ht => hall t ht
      simp [this]
    · rw [if_neg hg]
      exact h

lemma scanRun_done_imp (am nm : List (String × String))
    (targets : List String) (st : ScanState) (advs : List Advertisement)
    (h : st.doneFlag = true → ∀ t ∈ targets, (st.found.lookup t).isSome) :
    (scanRun am nm targets st advs).doneFlag = true →
      ∀ t ∈ targets,
        ((scanRun am nm targets st advs).found.lookup t).isSome := by
  induction advs generalizing st with
  | nil => exact h
  | cons a rest ih =>
    simp only [scanRun]
    by_cases hd : st.doneFlag = true
    · rw [if_pos hd]; exact h
    · rw [if_neg hd]
      exact ih _ (scanCb_done_imp am nm targets st a h)

lemma scanRun_allfound_imp (am nm : List (String × String))
    (targets : List String) (st : ScanState) (advs : List Advertisement)
    (h : (∀ t ∈ targets, (st.found.lookup t).isSome) → st.doneFlag = true) :
    (∀ t ∈ targets,
        ((scanRun am nm targets st advs).found.lookup t).isSome) →
      (scanRun am nm targets st advs).doneFlag = true := by
  induction advs generalizing st with
  | nil => exact h
  | cons a rest ih =>
    simp only [scanRun]
    by_cases hd : st.doneFlag = true
    · rw [if_pos hd]; exact fun _ => hd
    · rw [if_neg hd]
      exact ih _ (scanCb_allfound_imp am nm targets st a h)

lemma scanCb_keys (devs : List BleSnooz) (targets : List String)
    (st : ScanState) (adv : Advertisement)
    (h : ∀ p ∈ st.found, p.1 ∈ devs.map BleSnooz.deviceName) :
    ∀ p ∈ (scanCb (buildAddrMap devs) (buildNameMap devs) targets
        st adv).found, p.1 ∈ devs.map BleSnooz.deviceName := by
  unfold scanCb
  cases hm : matchAdv (buildAddrMap devs) (buildNameMap devs) adv with
  | none => exact h
  | some m =>
    dsimp only
    by_cases hg : (m ≠ "" && (st.found.lookup m).isNone) = true
    · rw [if_pos hg]
      intro p hp
      rcases List.mem_append.mp hp with hin | hnew
      · exact h p hin
      · have hpm : p = (m, adv) := by simpa using hnew
        subst hpm
        rcases matchAdv_cases _ _ _ _ hm with ⟨_, hlk⟩ | ⟨_, _, hlk⟩
        · obtain ⟨d, hd, _, _, hname⟩ := buildAddrMap_lookup_some devs _ _ hlk
          exact List.mem_map.mpr ⟨d, hd, hname⟩
        · obtain ⟨d, hd, _, _, _, _, hname⟩ :=
            buildNameMap_lookup_some devs _ _ hlk
          exact List.mem_map.mpr ⟨d, hd, hname⟩
    · rw [if_neg hg]
      exact h

lemma scanRun_keys (devs : List BleSnooz) (targets : List String)
    (st : ScanState) (advs : List Advertisement)
    (h : ∀ p ∈ st.found, p.1 ∈ devs.map BleSnooz.deviceName) :
    ∀ p ∈ (scanRun (buildAddrMap devs) (buildNameMap devs) targets
        st advs).found, p.1 ∈ devs.map BleSnooz.deviceName := by
  induction advs generalizing st with
  | nil => exact h
  | cons a rest ih =>
    simp only [scanRun]
    by_cases hd : st.doneFlag = true
    · rw [if_pos hd]; exact h
    · rw [if_neg hd]
      exact ih _ (scanCb_keys devs targets st a h)

lemma regUpdate_lookup_ne (reg : Registry) (k : String) (v : BleSnooz)
    (n : String) (h : n ≠ k) :
    (regUpdate reg k v).lookup n = reg.lookup n := by
  induction reg with
  | nil => rfl
  | cons p t ih =>
    rcases p with ⟨k', s⟩
    simp only [regUpdate, List.map_cons]
    by_cases hk : k' = k
    · rw [if_pos hk]
      rw [lookup_cons', lookup_cons']
      have h1 : (n == k) = false := by simp [h]
      have h2 : (n == k') = false := by simp [hk ▸ h]
      simp only [h1, h2, Bool.false_eq_true, if_false]
      exact ih
    · rw [if_neg hk]
      rw [lookup_cons', lookup_cons']
      by_cases hb : (n == k') = true
      · rw [hb]; rfl
      · simp only [Bool.not_eq_true] at hb
        simp only [hb, Bool.false_eq_true, if_false]
        exact ih

lemma regUpdate_lookup_eq (reg : Registry) (k : String) (v : BleSnooz)
    (h : (reg.lookup k).isSome) :
    (regUpdate reg k v).lookup k = some v := by
  induction reg with
  | nil => simp [List.lookup] at h
  | cons p t ih =>
    rcases p with ⟨k', s⟩
    simp only [regUpdate, List.map_cons]
    rw [lookup_cons'] at h
    by_cases hk : k' = k
    · rw [if_pos hk, lookup_cons']
      simp
    · rw [if_neg hk, lookup_cons']
      have hb : (k == k') = false := by simp [Ne.symm hk]
      simp only [hb, Bool.false_eq_true, if_false] at h ⊢
      exact ih h

lemma regUpdate_key_val (reg : Registry) (k : String) (v : BleSnooz) :
    ∀ p ∈ regUpdate reg k v, p.1 = k → p = (k, v) := by
  intro p hp hpk
  simp only [regUpdate, List.mem_map] at hp
  obtain ⟨q, _, hq⟩ := hp
  by_cases h : q.1 = k
  · rw [if_pos h] at hq; exact hq.symm
  · rw [if_neg h] at hq; rw [hq] at h; exact absurd hpk h

lemma missingNames_mem (reg : Registry) (n : String) :
    n ∈ missingNames reg ↔ ∃ s, (n, s) ∈ reg ∧ s.isReady = false := by
  simp only [missingNames, List.mem_map, List.mem_filter]
  constructor
  · rintro ⟨⟨n', s⟩, ⟨hmem, hf⟩, rfl⟩
    exact ⟨s, hmem, by simpa using hf⟩
  · rintro ⟨s, hmem, hf⟩
    exact ⟨(n, s), ⟨hmem, by simpa using hf⟩, rfl⟩

lemma bindDiscovery_classified
    (classify : Advertisement → Option DiscoveredSnooz) (s : BleSnooz)
    (adv : Advertisement) (d : DiscoveredSnooz) (h : classify adv = some d) :
    (bindDiscovery classify s adv).1 = true ∧
    (bindDiscovery classify s adv).2.isReady = true := by
  simp [bindDiscovery, h, BleSnooz.isReady]

lemma startSession_ready (o : Option DeviceHandle) (s : BleSnooz)
    (h : s.isReady = true) : (startSession o s).isReady = true := by
  unfold startSession
  cases o with
  | none => exact h
  | some hh =>
    cases hd : s.device with
    | none => exact h
    | some _ =>
      simp only [BleSnooz.isReady, Bool.and_eq_true] at h ⊢
      exact ⟨by simp, h.2⟩

lemma rescanBindOne_preserves_ready
    (classify : Advertisement → Option DiscoveredSnooz)
    (so : String → Option DeviceHandle) (reg : Registry)
    (e : String × Advertisement) (n : String) (s : BleSnooz)
    (hlook : reg.lookup n = some s) (hready : s.isReady = true) :
    (rescanBindOne classify so reg e).lookup n = some s := by
  unfold rescanBindOne
  cases ht : reg.lookup e.1 with
  | none => exact hlook
  | some t =>
    dsimp only
    by_cases htr : t.isReady = true
    · rw [if_neg (by simp [htr])]
      exact hlook
    · rw [if_pos (by simp [Bool.not_eq_true] at htr ⊢; exact htr)]
      by_cases hne : n = e.1
      · rw [hne] at hlook
        rw [hlook] at ht
        have : s = t := by injection ht
        rw [this] at hready
        exact absurd hready htr
      · by_cases hb : (bindDiscovery classify t e.2).1 = true
        · rw [if_pos hb, regUpdate_lookup_ne _ _ _ _ hne]
          exact hlook
        · rw [if_neg hb]
          exact hlook

/-! ### Claim theorems -/

/-- Claim C1: every device command acquires the shared capacity-1 gate
before its radio transaction and releases it after completion, whether the
transaction returns or raises (first conjunct, over the command traces);
consequently, under interleaved execution of any number of concurrently
submitted commands — same or different devices — no two radio transactions
are ever concurrent (second conjunct, mutual exclusion in every reachable
serializer state). -/
theorem serializer_mutual_exclusion :
    (∀ (ready : Bool) (c : DeviceCommand)
        (txn : Except String SnoozCommandResult),
        radioOnlyWhileHeld 0 (runCommand ready c txn).2 = true ∧
        gateBalance (runCommand ready c txn).2 = 0) ∧
    (∀ (n : Nat) (s : SerializerState n), SerReachable s →
        ∀ i j : Fin n, s.task i = .inTxn → s.task j = .inTxn → i = j) := by
  constructor
  · exact runCommand_trace_discipline
  · intro n s hreach i j hi hj
    exact (serInv_reachable hreach).2 i j hi hj

/-- Witness for C1: a concrete command trace keeps its radio transaction
under the gate, and in a concrete reachable state with task 0 inside its
transaction, mutual exclusion is instantiated. -/
theorem serializer_mutual_exclusion_witness :
    radioOnlyWhileHeld 0 (runCommand true (.setVolume 50)
      (.ok ⟨.successful⟩)).2 = true ∧ (0 : Fin 2) = (0 : Fin 2) := by
  refine ⟨(serializer_mutual_exclusion.1 true (.setVolume 50)
    (.ok ⟨.successful⟩)).1, ?_⟩
  have hreach : SerReachable serWitnessState := by
    have h0 : SerReachable (⟨false, fun _ => .idle⟩ : SerializerState 2) :=
      SerReachable.init
    have h1 := SerReachable.step h0 (SerStep.start _ 0 rfl)
    exact SerReachable.step h1 (SerStep.acquire _ 0 rfl rfl)
  exact serializer_mutual_exclusion.2 2 serWitnessState hreach 0 0 rfl rfl

/-- Claim C2: for a burst of notifications in which every consecutive gap
is below the 250 ms debounce window, exactly one event is emitted, at the
last notification's time plus the window, and its snapshot is the state
after the last notification (each notification cancels the pending
emission and restarts the delay). -/
theorem debounce_coalesces_burst {σ : Type} (notifs : List (Nat × σ))
    (hne : notifs ≠ [])
    (hburst : notifs.Chain' fun a b => b.1 < a.1 + DEBOUNCE_MS) :
    debounceEmissions notifs =
      [((notifs.getLast hne).1 + DEBOUNCE_MS, (notifs.getLast hne).2)] := by
  induction notifs with
  | nil => exact absurd rfl hne
  | cons x t ih =>
    cases t with
    | nil => simp [debounceEmissions]
    | cons y rest =>
      have hxy : y.1 < x.1 + DEBOUNCE_MS := (List.chain'_cons.mp hburst).1
      have htail : (y :: rest).Chain' fun a b => b.1 < a.1 + DEBOUNCE_MS :=
        (List.chain'_cons.mp hburst).2
      have hne' : y :: rest ≠ [] := List.cons_ne_nil y rest
      calc debounceEmissions (x :: y :: rest)
          = debounceEmissions (y :: rest) := by
            simp [debounceEmissions, hxy]
        _ = [(((y :: rest).getLast hne').1 + DEBOUNCE_MS,
              ((y :: rest).getLast hne').2)] := ih hne' htail
        _ = [(((x :: y :: rest).getLast hne).1 + DEBOUNCE_MS,
              ((x :: y :: rest).getLast hne).2)] := by
            rw [List.getLast_cons hne']

/-- Witness for C2: three notifications 100 ms apart yield exactly one
event at 450 ms carrying the third state. -/
theorem debounce_coalesces_burst_witness :
    debounceEmissions [(0, 1), (100, 2), (200, 3)] = [(450, 3)] := by
  have h := debounce_coalesces_burst [((0:Nat), (1:Nat)), (100, 2), (200, 3)]
    (by decide) (by simp [List.chain'_cons, DEBOUNCE_MS])
  simpa using h

/-- Counterexample for C3: an identity with a configured address (and a
configured match name) is bound by an advertisement whose hardware address
differs from the configured one — the binding arises from name matching,
so "a binding iff the advertisement's address equals the configured
address" and "name matching is never consulted for such an identity" are
both false. -/
theorem scan_name_match_counterexample :
    (scanForTargets [c3cfg] [c3adv]).lookup "bedroom" = some c3adv ∧
    c3cfg.address ≠ "" ∧
    sUpper c3adv.address ≠ sUpper c3cfg.address := by
  decide

/-- Claim C3 (amended): for an identity with a configured address, an
advertisement whose case-normalized address equals the configured address
yields the binding (when the identity is not already matched); a match is
made by address, or — only when the advertisement's address matches no
configured address — by configured match-name equality (case-insensitive,
trimmed), which can also re-target an identity that has a configured
address but additionally a configured match name; and an identity already
matched within the scan pass is not re-matched. -/
theorem scan_address_match_amended (devs : List BleSnooz)
    (targets : List String) (adv : Advertisement) (st : ScanState)
    (hdist : ∀ d₁ ∈ devs, ∀ d₂ ∈ devs, d₁.address ≠ "" → d₂.address ≠ "" →
      sUpper d₁.address = sUpper d₂.address → d₁.deviceName = d₂.deviceName) :
    (∀ d ∈ devs, d.address ≠ "" → sUpper adv.address = sUpper d.address →
      d.deviceName ≠ "" → st.found.lookup d.deviceName = none →
      (scanCb (buildAddrMap devs) (buildNameMap devs) targets st
          adv).found.lookup d.deviceName = some adv) ∧
    (∀ m, matchAdv (buildAddrMap devs) (buildNameMap devs) adv = some m →
      (∃ d ∈ devs, d.address ≠ "" ∧ sUpper adv.address = sUpper d.address ∧
        d.deviceName = m) ∨
      ((∀ d ∈ devs, d.address ≠ "" → sUpper adv.address ≠ sUpper d.address) ∧
        ∃ d ∈ devs, ∃ mn, d.matchName = some mn ∧ mn ≠ "" ∧
          sLower (advName adv) = sLower (sTrim mn) ∧ d.deviceName = m)) ∧
    (∀ n, (st.found.lookup n).isSome →
      (scanCb (buildAddrMap devs) (buildNameMap devs) targets st
          adv).found.lookup n = st.found.lookup n) := by
  refine ⟨?_, ?_, ?_⟩
  · intro d hd ha haddr hnm hnone
    have hlk : (buildAddrMap devs).lookup (sUpper adv.address) =
        some d.deviceName := by
      rw [haddr]; exact buildAddrMap_lookup_of_mem devs d hd ha hdist
    have hne : sUpper adv.address ≠ "" := by
      rw [haddr]
      exact fun hc => ha ((sUpper_eq_empty_iff _).mp hc)
    have hmadv : matchAdv (buildAddrMap devs) (buildNameMap devs) adv =
        some d.deviceName := by
      unfold matchAdv
      rw [if_pos (by simp [hne, hlk])]
      exact hlk
    unfold scanCb
    rw [hmadv]
    dsimp only
    rw [if_pos (by simp [hnm, hnone])]
    rw [lookup_append_none _ _ _ hnone, lookup_cons']
    simp
  · intro m hm
    rcases matchAdv_cases _ _ _ _ hm with ⟨_, hlk⟩ | ⟨hnone, _, hlk⟩
    · obtain ⟨d, hd, h1, h2, h3⟩ := buildAddrMap_lookup_some devs _ _ hlk
      exact Or.inl ⟨d, hd, h1, h2.symm, h3⟩
    · refine Or.inr ⟨?_, ?_⟩
      · intro d hd ha heq
        rcases hnone with he | hn
        · rw [he] at heq
          exact ha ((sUpper_eq_empty_iff _).mp heq.symm)
        · have hsome := buildAddrMap_isSome_of_mem devs d hd ha
          rw [← heq, hn] at hsome
          simp at hsome
      · obtain ⟨d, hd, mn, h1, h2, h3, h4⟩ :=
          buildNameMap_lookup_some devs _ _ hlk
        exact ⟨d, hd, mn, h1, h2, h3.symm, h4⟩
  · intro n hn
    exact scanCb_found_mono _ _ _ _ _ _ hn

/-- Witness for C3 (amended): a lower-case advertisement of the configured
address binds the identity. -/
theorem scan_address_match_amended_witness :
    (scanCb (buildAddrMap [c3cfg]) (buildNameMap [c3cfg]) ["bedroom"]
      ⟨[], false⟩ c3advAddr).found.lookup c3cfg.deviceName =
      some c3advAddr := by
  exact (scan_address_match_amended [c3cfg] ["bedroom"] c3advAddr
    ⟨[], false⟩ (by decide)).1 c3cfg (by decide) (by decide) (by decide)
    (by decide) (by decide)

/-- Claim C4: the scan ignores every advertisement observed after the one
that completes the target set (early termination — otherwise the run is
bounded by the advertisements delivered before the timeout); the done flag
is set exactly when all targets are matched; and the result maps only
targets, unmatched targets being simply absent of an always-returned
mapping. -/
theorem scan_termination_and_results (devs : List BleSnooz)
    (advs p rest : List Advertisement) :
    ((scanRun (buildAddrMap devs) (buildNameMap devs)
        (devs.map BleSnooz.deviceName) ⟨[], false⟩ p).doneFlag = true →
      scanForTargets devs (p ++ rest) = scanForTargets devs p) ∧
    ((scanRun (buildAddrMap devs) (buildNameMap devs)
        (devs.map BleSnooz.deviceName) ⟨[], false⟩ advs).doneFlag = true →
      ∀ t ∈ devs.map BleSnooz.deviceName,
        ((scanForTargets devs advs).lookup t).isSome) ∧
    (devs.map BleSnooz.deviceName ≠ [] →
      (∀ t ∈ devs.map BleSnooz.deviceName,
        ((scanForTargets devs advs).lookup t).isSome) →
      (scanRun (buildAddrMap devs) (buildNameMap devs)
        (devs.map BleSnooz.deviceName) ⟨[], false⟩ advs).doneFlag = true) ∧
    (∀ pr ∈ scanForTargets devs advs,
      pr.1 ∈ devs.map BleSnooz.deviceName) := by
  refine ⟨?_, ?_, ?_, ?_⟩
  · intro hdone
    unfold scanForTargets
    rw [scanRun_append, scanRun_done _ _ _ _ _ hdone]
  · intro hdone
    exact scanRun_done_imp _ _ _ _ _ (by simp) hdone
  · intro hne hall
    refine scanRun_allfound_imp _ _ _ _ _ ?_ hall
    intro hinit
    cases hts : devs.map BleSnooz.deviceName with
    | nil => exact absurd hts hne
    | cons t ts =>
      have := hinit t (by rw [hts]; exact List.mem_cons_self t ts)
      simp [List.lookup] at this
  · exact scanRun_keys devs _ _ advs (by simp)

/-- Witness for C4: with the single target matched by the first
advertisement, a later advertisement does not change the result. -/
theorem scan_termination_and_results_witness :
    scanForTargets [c3cfg] ([c3advAddr] ++ [c4late]) =
      scanForTargets [c3cfg] [c3advAddr] := by
  exact (scan_termination_and_results [c3cfg] [] [c3advAddr] [c4late]).1
    (by decide)

/-- Claim C5: `get_state` on a registered but unbound device returns a
status-ok response whose snapshot has `connected` false and
`display_name`, `model`, `firmware_version` and all five state fields
null; the snapshot touches no radio action and cannot fail. -/
theorem get_state_unbound_wellformed (reg : Registry) (name : String)
    (s : BleSnooz) (txn : Except String SnoozCommandResult) (m : WsMsg)
    (hlook : reg.lookup name = some s)
    (hdev : s.device = none) (hdisc : s.discovered = none)
    (htype : m.type = some "command") (hcmd : m.command = some "get_state")
    (hdn : m.deviceName = some name) (hname : name ≠ "") :
    cmdGetState reg name = (.ok s.snapshot, []) ∧
    s.snapshot.connected = false ∧
    s.snapshot.display_name = none ∧
    s.snapshot.model = none ∧
    s.snapshot.firmware_version = none ∧
    s.snapshot.state_on = none ∧
    s.snapshot.state_volume = none ∧
    s.snapshot.state_light_on = none ∧
    s.snapshot.state_light_brightness = none ∧
    s.snapshot.state_night_mode_enabled = none ∧
    handleMessage reg txn (.msg m) =
      ([.ok m.requestId (.snapshotData s.snapshot)], true) := by
  refine ⟨?_, ?_, ?_, ?_, ?_, ?_, ?_, ?_, ?_, ?_, ?_⟩
  · simp [cmdGetState, getDevice, hlook]
  all_goals
    simp [BleSnooz.snapshot, hdev, hdisc, handleMessage, htype,
      handleCommandMsg, hcmd, hdn, hname, truthyName, deviceNameCommands,
      cmdGetState, getDevice, hlook]

/-- Witness for C5: a concrete unbound registration answers `get_state`
with an ok snapshot. -/
theorem get_state_unbound_wellformed_witness :
    cmdGetState [("bedroom", demoUnbound)] "bedroom" =
      (.ok demoUnbound.snapshot, []) ∧
    demoUnbound.snapshot.connected = false := by
  have h := get_state_unbound_wellformed [("bedroom", demoUnbound)]
    "bedroom" demoUnbound (.ok ⟨.successful⟩) (mkMsg "get_state" none)
    (by decide) rfl rfl rfl rfl rfl (by decide)
  exact ⟨h.1, h.2.1⟩

/-- Claim C6: `set_volume` with an out-of-range volume on a ready device
raises a validation error before the serializer: the action trace is empty
(no gate acquisition, no radio transaction) and the gateway answers with a
single correlated validation error response. -/
theorem set_volume_out_of_range_rejected (reg : Registry) (name : String)
    (s : BleSnooz) (txn : Except String SnoozCommandResult) (v : Int)
    (m : WsMsg)
    (hlook : reg.lookup name = some s) (hready : s.isReady = true)
    (hout : ¬(0 ≤ v ∧ v ≤ 100))
    (htype : m.type = some "command") (hcmd : m.command = some "set_volume")
    (hdn : m.deviceName = some name) (hname : name ≠ "")
    (hvol : m.volume = some v) :
    (mgrCommand reg name (.setVolume v) txn).1 =
      .error (.validation "volume must be 0..100") ∧
    (mgrCommand reg name (.setVolume v) txn).2 = [] ∧
    handleMessage reg txn (.msg m) =
      ([.err m.requestId "volume must be 0..100"], true) := by
  have hcond : v < 0 ∨ 100 < v := by omega
  refine ⟨?_, ?_, ?_⟩ <;>
    simp [mgrCommand, getDevice, hlook, runCommand, hready, hcond,
      handleMessage, htype, handleCommandMsg, hcmd, hdn, hname, truthyName,
      deviceNameCommands, hvol, respondResult, errString]

/-- Witness for C6: volume 150 on a ready device leaves an empty action
trace and an error response. -/
theorem set_volume_out_of_range_rejected_witness :
    (mgrCommand [("bedroom", demoReady)] "bedroom" (.setVolume 150)
      (.ok ⟨.successful⟩)).2 = [] ∧
    handleMessage [("bedroom", demoReady)] (.ok ⟨.successful⟩)
      (.msg (mkMsg "set_volume" (some 150))) =
      ([.err (mkMsg "set_volume" (some 150)).requestId
        "volume must be 0..100"], true) := by
  have h := set_volume_out_of_range_rejected [("bedroom", demoReady)]
    "bedroom" demoReady (.ok ⟨.successful⟩) 150
    (mkMsg "set_volume" (some 150)) (by decide) (by decide) (by decide)
    rfl rfl rfl (by decide) rfl
  exact ⟨h.2.1, h.2.2⟩

/-- Claim C7: `noise_on` with an out-of-range volume ends in a validation
error (raised by the command constructor, which per the spec accepts
0–100, inside the gate but before any radio transaction): the trace is
exactly acquire-then-release with no radio transaction, and the gateway
answers with a correlated error response. -/
theorem noise_on_out_of_range (reg : Registry) (name : String)
    (s : BleSnooz) (txn : Except String SnoozCommandResult) (v : Int)
    (m : WsMsg)
    (hlook : reg.lookup name = some s) (hready : s.isReady = true)
    (hout : ¬(0 ≤ v ∧ v ≤ 100))
    (htype : m.type = some "command") (hcmd : m.command = some "noise_on")
    (hdn : m.deviceName = some name) (hname : name ≠ "")
    (hvol : m.volume = some v) :
    (mgrCommand reg name (.noiseOn (some v)) txn).1 =
      .error (.validation "volume must be between 0 and 100") ∧
    (mgrCommand reg name (.noiseOn (some v)) txn).2 =
      [.acquireGate, .releaseGate] ∧
    (∀ op, BleAction.radioTxn op ∉
      (mgrCommand reg name (.noiseOn (some v)) txn).2) ∧
    handleMessage reg txn (.msg m) =
      ([.err m.requestId "volume must be between 0 and 100"], true) := by
  refine ⟨?_, ?_, ?_, ?_⟩ <;>
    simp [mgrCommand, getDevice, hlook, runCommand, hready, turnOn, hout,
      withBleLock, handleMessage, htype, handleCommandMsg, hcmd, hdn, hname,
      truthyName, deviceNameCommands, hvol, respondResult, errString]

/-- Witness for C7: `noise_on` with volume 150 yields an error response
and no radio transaction. -/
theorem noise_on_out_of_range_witness :
    (mgrCommand [("bedroom", demoReady)] "bedroom" (.noiseOn (some 150))
      (.ok ⟨.successful⟩)).2 = [.acquireGate, .releaseGate] ∧
    handleMessage [("bedroom", demoReady)] (.ok ⟨.successful⟩)
      (.msg (mkMsg "noise_on" (some 150))) =
      ([.err (mkMsg "noise_on" (some 150)).requestId
        "volume must be between 0 and 100"], true) := by
  have h := noise_on_out_of_range [("bedroom", demoReady)] "bedroom"
    demoReady (.ok ⟨.successful⟩) 150 (mkMsg "noise_on" (some 150))
    (by decide) (by decide) (by decide) rfl rfl rfl (by decide) rfl
  exact ⟨h.2.1, h.2.2.2⟩

/-- Claim C8: a frame that is not valid JSON produces exactly one
response, status error, error invalid_json, request_id null, and the
connection stays open; every frame produces exactly one response with the
connection staying open; unknown commands and missing required fields each
produce one correlated error response. -/
theorem ws_error_isolation (reg : Registry)
    (txn : Except String SnoozCommandResult) :
    handleMessage reg txn .invalidJson = ([.err none "invalid_json"], true) ∧
    (∀ f, (handleMessage reg txn f).1.length = 1 ∧
      (handleMessage reg txn f).2 = true) ∧
    (∀ (m : WsMsg) (c : String), m.type = some "command" →
      m.command = some c →
      c ∉ ["heartbeat", "list_devices", "get_state", "noise_on", "noise_off",
           "set_volume", "light_on", "light_off", "set_light_brightness"] →
      handleMessage reg txn (.msg m) =
        ([.err m.requestId ("unknown_command: " ++ c)], true)) ∧
    (∀ m : WsMsg, m.type = some "command" → m.command = some "set_volume" →
      truthyName m.deviceName = true → m.volume = none →
      handleMessage reg txn (.msg m) =
        ([.err m.requestId "'volume'"], true)) := by
  refine ⟨rfl, ?_, ?_, ?_⟩
  · intro f
    cases f with
    | invalidJson => exact ⟨rfl, rfl⟩
    | msg m =>
      by_cases h : m.type = some "command" <;>
        simp [handleMessage, h]
  · intro m c htype hcmd hnc
    simp only [List.mem_cons, List.not_mem_nil, or_false, not_or] at hnc
    obtain ⟨h1, h2, h3, h4, h5, h6, h7, h8, h9⟩ := hnc
    simp [handleMessage, htype, handleCommandMsg, hcmd, deviceNameCommands,
      h1, h2, h3, h4, h5, h6, h7, h8, h9]
  · intro m htype hcmd hdn hvol
    simp [handleMessage, htype, handleCommandMsg, hcmd, deviceNameCommands,
      hdn, hvol]

/-- Witness for C8: a concrete unknown command gets one correlated error
response with the connection left open. -/
theorem ws_error_isolation_witness :
    handleMessage [] (.ok ⟨.successful⟩)
      (.msg { type := some "command", requestId := some "x1",
              command := some "bogus", deviceName := none, volume := none,
              brightness := none, durationS := none }) =
      ([.err (some "x1") "unknown_command: bogus"], true) := by
  exact (ws_error_isolation [] (.ok ⟨.successful⟩)).2.2.1 _ "bogus" rfl rfl
    (by decide)

/-- Claim C9: the rescan tick's missing set contains exactly the sessions
with no binding; the bind loop never touches a session that is ready at
the moment its match is processed (no double-bind); and a session whose
classification succeeds is ready after the bind-and-start step even when
`start()` raises, hence absent from any later missing set. -/
theorem rescan_binds_only_unbound
    (classify : Advertisement → Option DiscoveredSnooz)
    (so : String → Option DeviceHandle) :
    (∀ (reg : Registry) (n : String),
      n ∈ missingNames reg ↔ ∃ s, (n, s) ∈ reg ∧ s.isReady = false) ∧
    (∀ (reg : Registry) (found : List (String × Advertisement))
        (n : String) (s : BleSnooz),
      reg.lookup n = some s → s.isReady = true →
      (rescanBindLoop classify so reg found).lookup n = some s) ∧
    (∀ (reg : Registry) (e : String × Advertisement) (s : BleSnooz),
      reg.lookup e.1 = some s → s.isReady = false → (classify e.2).isSome →
      ∃ s', (rescanBindOne classify so reg e).lookup e.1 = some s' ∧
        s'.isReady = true ∧
        e.1 ∉ missingNames (rescanBindOne classify so reg e)) := by
  refine ⟨missingNames_mem, ?_, ?_⟩
  · intro reg found n s hlook hready
    induction found generalizing reg with
    | nil => exact hlook
    | cons e rest ih =>
      exact ih _ (rescanBindOne_preserves_ready classify so reg e n s
        hlook hready)
  · intro reg e s hlook hunready hcls
    obtain ⟨d, hd⟩ := Option.isSome_iff_exists.mp hcls
    have hb := bindDiscovery_classified classify s e.2 d hd
    refine ⟨startSession (so e.1) (bindDiscovery classify s e.2).2, ?_, ?_, ?_⟩
    · unfold rescanBindOne
      rw [hlook]
      dsimp only
      rw [if_pos (by simp [hunready]), if_pos hb.1]
      exact regUpdate_lookup_eq _ _ _ (by simp [hlook])
    · exact startSession_ready _ _ hb.2
    · intro hmem
      have hreg' : rescanBindOne classify so reg e =
          regUpdate reg e.1
            (startSession (so e.1) (bindDiscovery classify s e.2).2) := by
        unfold rescanBindOne
        rw [hlook]
        dsimp only
        rw [if_pos (by simp [hunready]), if_pos hb.1]
      rw [hreg'] at hmem
      obtain ⟨s'', hmem'', hunr''⟩ := (missingNames_mem _ _).mp hmem
      have := regUpdate_key_val reg e.1 _ (e.1, s'') hmem'' rfl
      have hs'' : s'' = startSession (so e.1)
          (bindDiscovery classify s e.2).2 := by
        injection this with _ h2
      rw [hs''] at hunr''
      simp [startSession_ready _ _ hb.2] at hunr''

/-- Witness for C9: an unbound session is bound by a match whose `start()`
raises, yet it ends ready and out of the missing set. -/
theorem rescan_binds_only_unbound_witness :
    ∃ s', (rescanBindOne c9classify c9startFails
        [("bedroom", demoUnbound)] ("bedroom", c3adv)).lookup "bedroom" =
        some s' ∧
      s'.isReady = true ∧
      "bedroom" ∉ missingNames (rescanBindOne c9classify c9startFails
        [("bedroom", demoUnbound)] ("bedroom", c3adv)) := by
  exact (rescan_binds_only_unbound c9classify c9startFails).2.2
    [("bedroom", demoUnbound)] ("bedroom", c3adv) demoUnbound
    (by decide) (by decide) (by decide)

/-- Claim C10: in `set_volume` and `set_light_brightness`, the readiness
check precedes argument validation — an unready device always answers
device_unavailable, even for an out-of-range argument, and no action
trace is produced. -/
theorem readiness_before_validation (reg : Registry) (name : String)
    (s : BleSnooz) (txn : Except String SnoozCommandResult) (v b : Int)
    (hlook : reg.lookup name = some s) (hunready : s.isReady = false) :
    (mgrCommand reg name (.setVolume v) txn).1 =
      .error .deviceUnavailable ∧
    (mgrCommand reg name (.setVolume v) txn).2 = [] ∧
    (mgrCommand reg name (.setLightBrightness b) txn).1 =
      .error .deviceUnavailable ∧
    (mgrCommand reg name (.setLightBrightness b) txn).2 = [] := by
  refine ⟨?_, ?_, ?_, ?_⟩ <;>
    simp [mgrCommand, getDevice, hlook, runCommand, hunready]

/-- Witness for C10: volume and brightness 150 on an unbound device both
answer device_unavailable, not a validation error. -/
theorem readiness_before_validation_witness :
    (mgrCommand [("bedroom", demoUnbound)] "bedroom" (.setVolume 150)
      (.ok ⟨.successful⟩)).1 = .error .deviceUnavailable ∧
    (mgrCommand [("bedroom", demoUnbound)] "bedroom"
      (.setLightBrightness 150) (.ok ⟨.successful⟩)).1 =
      .error .deviceUnavailable := by
  have h := readiness_before_validation [("bedroom", demoUnbound)]
    "bedroom" demoUnbound (.ok ⟨.successful⟩) 150 150 (by decide)
    (by decide)
  exact ⟨h.1, h.2.2.1⟩

end SnoozBridge
